import Mathlib

/-!
Shallow embedding of the student-directory service in
src/src/utils/studentManager.ts (final revision, bound to the hosted
backend). The manual_students table is a list of rows; every exported
operation becomes a state-passing function from the table to a result
paired with the table after the call. Each storage or collaborator call
of the original code is given an explicit outcome parameter, because the
PostgREST client reports faults as a returned error value alongside a
null data value rather than by throwing; thrown exceptions (which reach
the catch blocks) are modelled by separate flags where an operation
distinguishes them.
-/

namespace StudentManager

/-- The status column: the string enum with values active and inactive. -/
inductive Status where
  | active
  | inactive
deriving DecidableEq, Repr

/-- The ManualStudent row type declared in src/lib/supabase.ts. Timestamps
are abstract instants ordered as naturals, which matches how the store
compares timestamp columns. -/
structure ManualStudent where
  id : String
  name : String
  email : String
  notes : Option String
  added_by : String
  added_at : Nat
  status : Status
  created_at : Nat
  updated_at : Nat
deriving DecidableEq, Repr

/-- The CreateStudentData input type declared in src/lib/supabase.ts. -/
structure CreateStudentData where
  name : String
  email : String
  notes : Option String
  added_by : String
deriving DecidableEq, Repr

/-- The JavaScript String.prototype.toLowerCase call used to normalize
emails, modelled character by character. -/
def toLowerCase (s : String) : String := String.mk (s.data.map Char.toLower)

/-- Semantics of a PostgREST .single() call: data is the row when the
filtered result holds exactly one row; with zero or several rows data is
null and the error field carries code PGRST116. -/
def singleRow {α : Type} : List α → Option α
  | [a] => some a
  | _ => none

/-- Errors thrown by the write paths of studentManager.ts: the duplicate
email rejection, the wrapped storage error, and the missing-row error
after an insert. -/
inductive StudentError where
  | duplicateEmail
  | persistenceError (msg : String)
  | noData
deriving DecidableEq, Repr

/-- Outcome of the insert call in addStudent: the store either returns
the created row with its server-assigned fields, reports an error, or
returns no row. -/
inductive InsertOutcome where
  | created (id : String) (added_at : Nat) (created_at : Nat) (updated_at : Nat)
  | storageError (msg : String)
  | noRow
deriving DecidableEq, Repr

/-- Outcome of the welcome-email edge-function invoke inside
sendWelcomeEmail. -/
inductive EmailOutcome where
  | delivered
  | invokeError (msg : String)
deriving DecidableEq, Repr

/-- Body of sendWelcomeEmail before its own catch: invoke the
send-welcome-email function and rethrow its error if any. -/
def sendWelcomeEmailBody (o : EmailOutcome) : Except String Unit :=
  match o with
  | .delivered => .ok ()
  | .invokeError m => .error m

/-- The sendWelcomeEmail helper: its catch logs every failure of the
invoke and swallows it, so the helper always resolves. -/
def sendWelcomeEmail (o : EmailOutcome) : Except String Unit :=
  match sendWelcomeEmailBody o with
  | .ok _ => .ok ()
  | .error _ => .ok ()

/-- Fault model for one addStudent call: whether the duplicate pre-check
query reports a storage error (returned in the discarded error field of
the destructuring, with data null), the outcome of the insert, and the
outcome of the welcome-email invoke. -/
structure AddEnv where
  precheckError : Bool
  insertOutcome : InsertOutcome
  emailOutcome : EmailOutcome
deriving DecidableEq, Repr

/-- The row built by the insert statement of addStudent: the input fields
spread over a lowercased email and status forced to active, completed by
the server-assigned id and timestamps. -/
def mkRow (studentData : CreateStudentData) (i : String) (aAt cAt uAt : Nat) :
    ManualStudent :=
  { id := i, name := studentData.name, email := toLowerCase studentData.email,
    notes := studentData.notes, added_by := studentData.added_by,
    added_at := aAt, status := .active, created_at := cAt, updated_at := uAt }

/-- The addStudent operation: pre-check for a row with the lowercased
email (any status, error field discarded), throw the duplicate error when
the pre-check returns a row, otherwise insert the new row with status
active, throw on a reported insert error or a missing returned row, then
attempt the welcome email inside a try block whose catch only warns. -/
def addStudent (env : AddEnv) (db : List ManualStudent)
    (studentData : CreateStudentData) :
    Except StudentError ManualStudent × List ManualStudent :=
  let norm := toLowerCase studentData.email
  let existingStudent : Option ManualStudent :=
    if env.precheckError then none
    else singleRow (db.filter (fun r => decide (r.email = norm)))
  match existingStudent with
  | some _ => (.error .duplicateEmail, db)
  | none =>
    match env.insertOutcome with
    | .storageError m => (.error (.persistenceError m), db)
    | .noRow => (.error .noData, db)
    | .created i aAt cAt uAt =>
      let row := mkRow studentData i aAt cAt uAt
      match sendWelcomeEmail env.emailOutcome with
      | .ok _ => (.ok row, db ++ [row])
      | .error _ => (.ok row, db ++ [row])

/-- The ordering requested by order added_at descending: a row comes
before another when its added_at is at least the other's. -/
def addedAtDesc (a b : ManualStudent) : Prop := b.added_at ≤ a.added_at

instance : DecidableRel addedAtDesc := fun a b => Nat.decLe b.added_at a.added_at

instance : IsTotal ManualStudent addedAtDesc :=
  ⟨fun a b => Nat.le_total b.added_at a.added_at⟩

instance : IsTrans ManualStudent addedAtDesc :=
  ⟨fun _ _ _ h1 h2 => Nat.le_trans h2 h1⟩

/-- One refinement of the store's order added_at descending clause. -/
def sortByAddedAtDesc (db : List ManualStudent) : List ManualStudent :=
  List.insertionSort addedAtDesc db

/-- The getStudents operation: select all rows ordered by added_at
descending; on a reported storage error the catch logs and returns the
empty list. -/
def getStudents (storageError : Bool) (db : List ManualStudent) :
    List ManualStudent :=
  if storageError then [] else sortByAddedAtDesc db

/-- The removeStudent operation: delete the rows matching the id with no
prior existence check; a reported delete error is rethrown wrapped, and
otherwise the call resolves with no value. -/
def removeStudent (storageError : Option String) (db : List ManualStudent)
    (studentId : String) : Except StudentError Unit × List ManualStudent :=
  match storageError with
  | some m => (.error (.persistenceError m), db)
  | none => (.ok (), db.filter (fun r => decide (r.id ≠ studentId)))

/-- The row transform of the update statement in updateStudentStatus:
only the status column of the rows matching the id filter is written. -/
def setStatusRow (studentId : String) (status : Status) (r : ManualStudent) :
    ManualStudent :=
  if r.id = studentId then { r with status := status } else r

/-- The updateStudentStatus operation: write the status column of the
rows matching the id, with no transition validation; a reported update
error is rethrown wrapped. -/
def updateStudentStatus (storageError : Option String) (db : List ManualStudent)
    (studentId : String) (status : Status) :
    Except StudentError Unit × List ManualStudent :=
  match storageError with
  | some m => (.error (.persistenceError m), db)
  | none => (.ok (), db.map (setStatusRow studentId status))

/-- The predicate of the active-only lookup by normalized email shared by
checkEmailExists and getStudentByEmail. -/
def activeEmailRow (e : String) (r : ManualStudent) : Bool :=
  decide (r.email = toLowerCase e ∧ r.status = Status.active)

/-- Fault model for one checkEmailExists call. localThrown is an
exception from the local lookup reaching the catch; localQueryError is a
storage error returned in the discarded error field of the lookup;
hotmartThrown is the dynamic import or verifyHotmartPurchase rejecting;
hotmart is the boolean verdict of the external purchase-verification
collaborator. -/
structure CheckEnv where
  localThrown : Bool
  localQueryError : Bool
  hotmartThrown : Bool
  hotmart : String → Bool

/-- The checkEmailExists operation: return true when the active-only
lookup by lowercased email returns a row, otherwise delegate to the
external purchase verification; any exception reaching the catch yields
false. -/
def checkEmailExists (env : CheckEnv) (db : List ManualStudent)
    (email : String) : Bool :=
  if env.localThrown then false
  else
    let manualStudent : Option ManualStudent :=
      if env.localQueryError then none
      else singleRow (db.filter (activeEmailRow email))
    match manualStudent with
    | some _ => true
    | none => if env.hotmartThrown then false else env.hotmart email

/-- The getStudentByEmail operation: active-only lookup by lowercased
email through .single(); the no-rows signal PGRST116 and every other
reported error both leave data null, so the call returns the row exactly
when the lookup finds one. -/
def getStudentByEmail (storageError : Bool) (db : List ManualStudent)
    (email : String) : Option ManualStudent :=
  if storageError then none
  else singleRow (db.filter (activeEmailRow email))

/-- The result record of getStudentStats. -/
structure StudentStats where
  total : Nat
  active : Nat
  inactive : Nat
  addedThisMonth : Nat
deriving DecidableEq, Repr

/-- Fault model for one getStudentStats call: one flag per count query (a
failed count resolves to null, which the code turns into 0), plus thrown
for an exception reaching the outer catch. startOfMonth is the instant
the code computes from the local clock: midnight of the first day of the
current calendar month. -/
structure StatsEnv where
  thrown : Bool
  totalError : Bool
  activeError : Bool
  inactiveError : Bool
  monthError : Bool
  startOfMonth : Nat
deriving DecidableEq, Repr

/-- The getStudentStats operation: four independent count queries with
each null count defaulted to 0, and an outer catch that returns the all
zero record. -/
def getStudentStats (env : StatsEnv) (db : List ManualStudent) : StudentStats :=
  if env.thrown then ⟨0, 0, 0, 0⟩
  else
    { total := if env.totalError then 0 else db.length,
      active := if env.activeError then 0 else
        (db.filter (fun r => decide (r.status = Status.active))).length,
      inactive := if env.inactiveError then 0 else
        (db.filter (fun r => decide (r.status = Status.inactive))).length,
      addedThisMonth := if env.monthError then 0 else
        (db.filter (fun r => decide (env.startOfMonth ≤ r.added_at))).length }

/-- Whether the first character list starts the second one. -/
def leadsWith : List Char → List Char → Bool
  | [], _ => true
  | _ :: _, [] => false
  | a :: qs, b :: hs => decide (a = b) && leadsWith qs hs

/-- Whether the first character list occurs contiguously inside the
second one: the substring test realised by an ilike pattern framed by
percent wildcards. -/
def occursIn (q : List Char) : List Char → Bool
  | [] => q.isEmpty
  | b :: hs => leadsWith q (b :: hs) || occursIn q hs

/-- The ilike filter of searchStudents: the query occurs
case-insensitively inside the name or inside the email. -/
def matchesQuery (query : String) (r : ManualStudent) : Bool :=
  occursIn (toLowerCase query).data (toLowerCase r.name).data ||
  occursIn (toLowerCase query).data (toLowerCase r.email).data

/-- The searchStudents operation: keep the rows matched by the ilike
filter on name or email, ordered by added_at descending; on a reported
storage error the catch logs and returns the empty list. -/
def searchStudents (storageError : Bool) (db : List ManualStudent)
    (query : String) : List ManualStudent :=
  if storageError then [] else sortByAddedAtDesc (db.filter (matchesQuery query))

/-- Reachable-state invariant: every stored email is already lowercase,
because the only insert path writes the lowercased input email. -/
def EmailsNormalized (db : List ManualStudent) : Prop :=
  ∀ r ∈ db, toLowerCase r.email = r.email

/-- Reachable-state invariant: no two rows carry the same email, the
uniqueness invariant stated by the data model. -/
def EmailsUnique (db : List ManualStudent) : Prop :=
  List.Pairwise (fun a b => a.email ≠ b.email) db

instance (db : List ManualStudent) : Decidable (EmailsNormalized db) :=
  List.decidableBAll _ db

instance (db : List ManualStudent) : Decidable (EmailsUnique db) :=
  List.instDecidablePairwise db

/-- Concrete ids and messages used by the witness scenarios. -/
def idOne : String := "id1"

/-- Second server-assigned id of the witness scenarios. -/
def idTwo : String := "id2"

/-- An id stored by no record of the witness scenarios. -/
def idAbsent : String := "id9"

/-- The capitalised variation of the scenario email. -/
def anaUpperEmail : String := "ANA@EXAMPLE.COM"

/-- The normalized scenario email. -/
def anaLowerEmail : String := "ana@example.com"

/-- A storage fault message used by the witness scenarios. -/
def faultMsg : String := "m"

/-- A notification fault message used by the witness scenarios. -/
def smtpMsg : String := "smtp down"

/-- The stored Ana Silva row of the acceptance scenario. -/
def anaRow : ManualStudent :=
  { id := "id1", name := "Ana Silva", email := "ana@example.com", notes := none,
    added_by := "admin1", added_at := 1, status := .active,
    created_at := 1, updated_at := 1 }

/-- The add input of the acceptance scenario. -/
def anaInput : CreateStudentData :=
  { name := "Ana Silva", email := "Ana@Example.com", notes := none,
    added_by := "admin1" }

theorem mem_of_singleRow_eq_some {α : Type} {l : List α} {a : α}
    (h : singleRow l = some a) : a ∈ l := by
  cases l with
  | nil => cases h
  | cons x t =>
    cases t with
    | nil => cases h; exact List.mem_singleton_self _
    | cons y u => cases h

theorem filter_eq_singleton_of_uniqueEmails {db : List ManualStudent}
    {r : ManualStudent} (hu : EmailsUnique db) (hr : r ∈ db)
    (p : ManualStudent → Bool) (hp : ∀ x, p x = true → x.email = r.email)
    (hpr : p r = true) : db.filter p = [r] := by
  induction db with
  | nil => cases hr
  | cons a t ih =>
    have hu' := List.pairwise_cons.mp hu
    rcases List.mem_cons.mp hr with h | h
    · subst h
      have ht : t.filter p = [] := by
        refine List.filter_eq_nil_iff.mpr (fun x hx hpx => ?_)
        exact hu'.1 x hx (hp x hpx).symm
      simp [List.filter_cons, hpr, ht]
    · have hpa : p a = false := by
        cases hv : p a with
        | false => rfl
        | true => exact absurd (hp a hv) (hu'.1 r h)
      simpa [List.filter_cons, hpa] using ih hu'.2 h

theorem leadsWith_iff (q h : List Char) : leadsWith q h = true ↔ q <+: h := by
  induction q generalizing h with
  | nil => simp [leadsWith]
  | cons a qs ih =>
    cases h with
    | nil => simp [leadsWith]
    | cons b hs => simp [leadsWith, List.cons_prefix_cons, ih]

theorem occursIn_iff (q h : List Char) : occursIn q h = true ↔ q <:+: h := by
  induction h with
  | nil => simp [occursIn, List.isEmpty_iff]
  | cons b hs ih => simp [occursIn, List.infix_cons_iff, leadsWith_iff, ih]

theorem length_filter_status (db : List ManualStudent) :
    (db.filter (fun r => decide (r.status = Status.active))).length +
      (db.filter (fun r => decide (r.status = Status.inactive))).length =
      db.length := by
  induction db with
  | nil => rfl
  | cons a t ih =>
    cases ha : a.status <;> simp [List.filter_cons, ha] <;> omega

theorem eq_of_mem_of_email_eq {db : List ManualStudent} (hu : EmailsUnique db)
    {x r : ManualStudent} (hx : x ∈ db) (hr : r ∈ db)
    (he : x.email = r.email) : x = r := by
  induction db with
  | nil => cases hx
  | cons a t ih =>
    have hu' := List.pairwise_cons.mp hu
    rcases List.mem_cons.mp hx with hx1 | hx1 <;>
      rcases List.mem_cons.mp hr with hr1 | hr1
    · rw [hx1, hr1]
    · subst hx1; exact absurd he (hu'.1 r hr1)
    · subst hr1; exact absurd he.symm (hu'.1 x hx1)
    · exact ih hu'.2 hx1 hr1

/-- C4: getStudents returns all records ordered by added_at descending,
most recently added first, and on an underlying storage fault it returns
the empty sequence instead of propagating the error. -/
theorem getStudents_ordered_and_degraded (db : List ManualStudent) :
    (getStudents false db).Perm db ∧
    List.Sorted addedAtDesc (getStudents false db) ∧
    getStudents true db = [] := by
  refine ⟨?_, ?_, rfl⟩
  · simpa [getStudents, sortByAddedAtDesc] using
      List.perm_insertionSort addedAtDesc db
  · simpa [getStudents, sortByAddedAtDesc] using
      List.sorted_insertionSort addedAtDesc db

/-- C6: getStudentStats never fails: it returns a structurally complete
record in which each count whose query faults defaults to 0, it returns
the all-zero record when an exception reaches the catch, in a fault-free
run addedThisMonth counts the records whose added_at is at or after the
clock-derived midnight of the first day of the current month, and the
fault-free total splits into active plus inactive. -/
theorem getStudentStats_degraded_defaults (db : List ManualStudent)
    (te ae ie me : Bool) (som : Nat) :
    getStudentStats ⟨true, te, ae, ie, me, som⟩ db = ⟨0, 0, 0, 0⟩ ∧
    (getStudentStats ⟨false, te, ae, ie, me, som⟩ db).total
      = (if te then 0 else db.length) ∧
    (getStudentStats ⟨false, te, ae, ie, me, som⟩ db).active
      = (if ae then 0 else
          (db.filter (fun r => decide (r.status = Status.active))).length) ∧
    (getStudentStats ⟨false, te, ae, ie, me, som⟩ db).inactive
      = (if ie then 0 else
          (db.filter (fun r => decide (r.status = Status.inactive))).length) ∧
    (getStudentStats ⟨false, te, ae, ie, me, som⟩ db).addedThisMonth
      = (if me then 0 else
          (db.filter (fun r => decide (som ≤ r.added_at))).length) ∧
    (getStudentStats ⟨false, false, false, false, false, som⟩ db).active +
      (getStudentStats ⟨false, false, false, false, false, som⟩ db).inactive =
      (getStudentStats ⟨false, false, false, false, false, som⟩ db).total := by
  refine ⟨rfl, rfl, rfl, rfl, rfl, ?_⟩
  simpa [getStudentStats] using length_filter_status db

/-- C9: updateStudentStatus overwrites only the status column of the rows
matching the id, unconditionally and with no transition validation (a row
already carrying the written status is left identical), every other field
including id, added_at and created_at is unchanged, and a reported
storage fault becomes a persistence error with the table unchanged. -/
theorem updateStudentStatus_frame (db : List ManualStudent)
    (studentId : String) (status : Status) (msg : String) :
    updateStudentStatus (some msg) db studentId status
      = (.error (.persistenceError msg), db) ∧
    (updateStudentStatus none db studentId status).1 = .ok () ∧
    (updateStudentStatus none db studentId status).2
      = db.map (setStatusRow studentId status) ∧
    (∀ r : ManualStudent, (setStatusRow studentId status r).id = r.id ∧
      (setStatusRow studentId status r).name = r.name ∧
      (setStatusRow studentId status r).email = r.email ∧
      (setStatusRow studentId status r).notes = r.notes ∧
      (setStatusRow studentId status r).added_by = r.added_by ∧
      (setStatusRow studentId status r).added_at = r.added_at ∧
      (setStatusRow studentId status r).created_at = r.created_at ∧
      (setStatusRow studentId status r).updated_at = r.updated_at) ∧
    (∀ r : ManualStudent, r.id = studentId →
      (setStatusRow studentId status r).status = status) ∧
    (∀ r : ManualStudent, r.id ≠ studentId →
      setStatusRow studentId status r = r) ∧
    (∀ r : ManualStudent, r.status = status →
      setStatusRow studentId status r = r) := by
  refine ⟨rfl, rfl, rfl, fun r => ?_, fun r h => ?_, fun r h => ?_,
    fun r h => ?_⟩
  · unfold setStatusRow
    split <;> exact ⟨rfl, rfl, rfl, rfl, rfl, rfl, rfl, rfl⟩
  · simp [setStatusRow, h]
  · simp [setStatusRow, h]
  · unfold setStatusRow
    split
    · rw [← h]
    · rfl

theorem updateStudentStatus_frame_witness :
    (setStatusRow idOne Status.inactive anaRow).status = Status.inactive ∧
    setStatusRow idAbsent Status.inactive anaRow = anaRow ∧
    setStatusRow idOne Status.active anaRow = anaRow :=
  ⟨(updateStudentStatus_frame [anaRow] idOne Status.inactive faultMsg).2.2.2.2.1
      anaRow rfl,
   (updateStudentStatus_frame [anaRow] idAbsent Status.inactive faultMsg).2.2.2.2.2.1
      anaRow (by decide),
   (updateStudentStatus_frame [anaRow] idOne Status.active faultMsg).2.2.2.2.2.2
      anaRow rfl⟩

/-- C1: when some stored record carries the same email compared case
insensitively after lowercase normalization, regardless of that record's
status, addStudent with a fault-free pre-check throws the duplicate-email
error and leaves the record set unchanged, for every insert and email
outcome. -/
theorem addStudent_duplicate_rejected (ins : InsertOutcome) (em : EmailOutcome)
    (db : List ManualStudent) (hn : EmailsNormalized db) (hu : EmailsUnique db)
    (studentData : CreateStudentData) (r : ManualStudent) (hr : r ∈ db)
    (hdup : toLowerCase r.email = toLowerCase studentData.email) :
    addStudent ⟨false, ins, em⟩ db studentData
      = (.error .duplicateEmail, db) := by
  have hre : r.email = toLowerCase studentData.email := by
    rw [← hn r hr, hdup]
  have hfil : db.filter
      (fun x => decide (x.email = toLowerCase studentData.email)) = [r] :=
    filter_eq_singleton_of_uniqueEmails hu hr _
      (fun x hx => (of_decide_eq_true hx).trans hre.symm)
      (decide_eq_true hre)
  simp [addStudent, hfil, singleRow]

theorem addStudent_duplicate_rejected_witness :
    addStudent ⟨false, .created idTwo 2 2 2, .delivered⟩ [anaRow]
        ⟨"Ana Silva", "ANA@EXAMPLE.COM", none, "admin1"⟩
      = (.error .duplicateEmail, [anaRow]) :=
  addStudent_duplicate_rejected (.created idTwo 2 2 2) .delivered [anaRow]
    (by decide) (by decide) ⟨"Ana Silva", "ANA@EXAMPLE.COM", none, "admin1"⟩
    anaRow (List.mem_singleton_self _) (by decide)

/-- C5: searchStudents returns exactly the records whose name or email
contains the query as a case-insensitive substring, ordered by added_at
descending, returns the empty sequence on a storage fault, and on the
Ana Silva scenario the query ana returns the Ana record while xyz
returns nothing. -/
theorem searchStudents_spec (db : List ManualStudent) (query : String) :
    (∀ r, r ∈ searchStudents false db query ↔
      r ∈ db ∧ ((toLowerCase query).data <:+: (toLowerCase r.name).data ∨
                (toLowerCase query).data <:+: (toLowerCase r.email).data)) ∧
    List.Sorted addedAtDesc (searchStudents false db query) ∧
    searchStudents true db query = [] ∧
    searchStudents false [anaRow] "ana" = [anaRow] ∧
    searchStudents false [anaRow] "xyz" = [] := by
  refine ⟨fun r => ?_, ?_, rfl, by decide, by decide⟩
  · simp [searchStudents, sortByAddedAtDesc, List.mem_insertionSort,
      List.mem_filter, matchesQuery, occursIn_iff]
  · simpa [searchStudents, sortByAddedAtDesc] using
      List.sorted_insertionSort addedAtDesc (db.filter (matchesQuery query))

/-- C3: checkEmailExists is true when an active local record with the
lowercased email exists, inactive records are not considered, it returns
the external purchase-verification verdict when no active local record
matches, and a thrown internal fault makes it return false rather than
propagate an error. -/
theorem checkEmailExists_spec (env : CheckEnv) (db : List ManualStudent)
    (hu : EmailsUnique db) (email : String) :
    (env.localThrown = false → env.localQueryError = false →
      ∀ r ∈ db, r.email = toLowerCase email → r.status = Status.active →
      checkEmailExists env db email = true) ∧
    (env.localThrown = false → env.hotmartThrown = false →
      (∀ r ∈ db, r.email = toLowerCase email → r.status ≠ Status.active) →
      checkEmailExists env db email = env.hotmart email) ∧
    (env.localThrown = true → checkEmailExists env db email = false) ∧
    (env.localThrown = false → env.hotmartThrown = true →
      (∀ r ∈ db, r.email = toLowerCase email → r.status ≠ Status.active) →
      checkEmailExists env db email = false) := by
  refine ⟨fun h1 h2 r hr he hs => ?_, fun h1 h2 hno => ?_, fun h1 => ?_,
    fun h1 h2 hno => ?_⟩
  · have hfil : db.filter (activeEmailRow email) = [r] :=
      filter_eq_singleton_of_uniqueEmails hu hr _
        (fun x hx => ((of_decide_eq_true hx).1).trans he.symm)
        (decide_eq_true ⟨he, hs⟩)
    simp [checkEmailExists, h1, h2, hfil, singleRow]
  · have hfil : db.filter (activeEmailRow email) = [] := by
      refine List.filter_eq_nil_iff.mpr (fun x hx hpx => ?_)
      have hp := of_decide_eq_true hpx
      exact hno x hx hp.1 hp.2
    cases hlq : env.localQueryError <;>
      simp [checkEmailExists, h1, h2, hlq, hfil, singleRow]
  · simp [checkEmailExists, h1]
  · have hfil : db.filter (activeEmailRow email) = [] := by
      refine List.filter_eq_nil_iff.mpr (fun x hx hpx => ?_)
      have hp := of_decide_eq_true hpx
      exact hno x hx hp.1 hp.2
    cases hlq : env.localQueryError <;>
      simp [checkEmailExists, h1, h2, hlq, hfil, singleRow]

/-- The inactive Ana Silva row used to check that inactive records are
not considered by the active-only lookups. -/
def anaInactiveRow : ManualStudent :=
  { anaRow with status := .inactive }

theorem checkEmailExists_spec_witness :
    checkEmailExists ⟨false, false, false, fun _ => false⟩ [anaRow]
      anaUpperEmail = true ∧
    checkEmailExists ⟨false, false, false, fun _ => true⟩ [anaInactiveRow]
      anaLowerEmail = true ∧
    checkEmailExists ⟨true, false, false, fun _ => true⟩ [anaRow]
      anaLowerEmail = false ∧
    checkEmailExists ⟨false, false, true, fun _ => true⟩ [anaInactiveRow]
      anaLowerEmail = false :=
  ⟨(checkEmailExists_spec ⟨false, false, false, fun _ => false⟩ [anaRow]
      (by decide) anaUpperEmail).1 rfl rfl anaRow
      (List.mem_singleton_self _) (by decide) rfl,
   (checkEmailExists_spec ⟨false, false, false, fun _ => true⟩ [anaInactiveRow]
      (by decide) anaLowerEmail).2.1 rfl rfl (by decide),
   (checkEmailExists_spec ⟨true, false, false, fun _ => true⟩ [anaRow]
      (by decide) anaLowerEmail).2.2.1 rfl,
   (checkEmailExists_spec ⟨false, false, true, fun _ => true⟩ [anaInactiveRow]
      (by decide) anaLowerEmail).2.2.2 rfl rfl (by decide)⟩

theorem addStudent_ok_inv {pe : Bool} {ins : InsertOutcome} {em : EmailOutcome}
    {db : List ManualStudent} {studentData : CreateStudentData}
    {rec : ManualStudent} {db' : List ManualStudent}
    (h : addStudent ⟨pe, ins, em⟩ db studentData = (.ok rec, db')) :
    (∃ i aAt cAt uAt, ins = .created i aAt cAt uAt ∧
      rec = mkRow studentData i aAt cAt uAt) ∧
    db' = db ++ [rec] ∧
    (pe = false →
      singleRow (db.filter
        (fun r => decide (r.email = toLowerCase studentData.email))) = none) := by
  have hsw : ∀ o, sendWelcomeEmail o = Except.ok () := fun o => by
    cases o <;> rfl
  cases pe with
  | true =>
    cases ins with
    | created i aAt cAt uAt =>
      simp [addStudent, hsw] at h
      exact ⟨⟨i, aAt, cAt, uAt, rfl, h.1.symm⟩, by rw [← h.2, h.1],
        fun hf => by cases hf⟩
    | storageError m => simp [addStudent] at h
    | noRow => simp [addStudent] at h
  | false =>
    cases hs : singleRow (db.filter
        (fun r => decide (r.email = toLowerCase studentData.email))) with
    | some r => simp [addStudent, hs] at h
    | none =>
      cases ins with
      | created i aAt cAt uAt =>
        simp [addStudent, hs, hsw] at h
        exact ⟨⟨i, aAt, cAt, uAt, rfl, h.1.symm⟩, by rw [← h.2, h.1],
          fun _ => rfl⟩
      | storageError m => simp [addStudent, hs] at h
      | noRow => simp [addStudent, hs] at h

/-- C2: a successful addStudent followed by getStudentByEmail with any
case variation of the same email returns the stored record, whose email
is the lowercase normalization of the input email. -/
theorem addStudent_getStudentByEmail_roundtrip (ins : InsertOutcome)
    (em : EmailOutcome) (db : List ManualStudent) (hu : EmailsUnique db)
    (studentData : CreateStudentData) (rec : ManualStudent)
    (db' : List ManualStudent)
    (hadd : addStudent ⟨false, ins, em⟩ db studentData = (.ok rec, db'))
    (e' : String) (he : toLowerCase e' = toLowerCase studentData.email) :
    getStudentByEmail false db' e' = some rec ∧
    rec.email = toLowerCase studentData.email := by
  rcases addStudent_ok_inv hadd with ⟨⟨i, aAt, cAt, uAt, -, hrec⟩, hdb, hpre⟩
  have hemail : rec.email = toLowerCase studentData.email := by rw [hrec]; rfl
  have hactive : rec.status = Status.active := by rw [hrec]; rfl
  have hnone := hpre rfl
  have hnodup : ∀ x ∈ db, x.email ≠ toLowerCase studentData.email := by
    intro x hx hcon
    have hfil : db.filter
        (fun r => decide (r.email = toLowerCase studentData.email)) = [x] :=
      filter_eq_singleton_of_uniqueEmails hu hx _
        (fun y hy => (of_decide_eq_true hy).trans hcon.symm)
        (decide_eq_true hcon)
    rw [hfil] at hnone
    simp [singleRow] at hnone
  have hfil2 : db'.filter (activeEmailRow e') = [rec] := by
    rw [hdb, List.filter_append]
    have h1 : db.filter (activeEmailRow e') = [] := by
      refine List.filter_eq_nil_iff.mpr (fun x hx hpx => ?_)
      have hp := of_decide_eq_true hpx
      exact hnodup x hx (hp.1.trans he)
    have hrt : activeEmailRow e' rec = true :=
      decide_eq_true ⟨by rw [hemail, he], hactive⟩
    have h2 : List.filter (activeEmailRow e') [rec] = [rec] := by
      simp [List.filter_cons, hrt]
    rw [h1, h2]
    rfl
  refine ⟨?_, hemail⟩
  simp [getStudentByEmail, hfil2, singleRow]

theorem addStudent_getStudentByEmail_roundtrip_witness :
    (mkRow anaInput idOne 1 1 1).email = "ana@example.com" ∧
    (getStudentByEmail false [mkRow anaInput idOne 1 1 1] anaUpperEmail
        = some (mkRow anaInput idOne 1 1 1) ∧
      (mkRow anaInput idOne 1 1 1).email = toLowerCase anaInput.email) :=
  ⟨by decide,
   addStudent_getStudentByEmail_roundtrip (.created idOne 1 1 1) .delivered []
     (by decide) anaInput (mkRow anaInput idOne 1 1 1)
     [mkRow anaInput idOne 1 1 1] rfl anaUpperEmail (by decide)⟩

/-- C7: after addStudent persists the record, any failure of the welcome
email step is swallowed: the helper always resolves, the call result and
the resulting table do not depend on the email outcome, and a
successfully created record is present in the table after the call. -/
theorem addStudent_email_fault_swallowed (pe : Bool) (ins : InsertOutcome)
    (db : List ManualStudent) (studentData : CreateStudentData)
    (e1 e2 : EmailOutcome) :
    (∀ o, sendWelcomeEmail o = .ok ()) ∧
    addStudent ⟨pe, ins, e1⟩ db studentData
      = addStudent ⟨pe, ins, e2⟩ db studentData ∧
    (∀ rec db', addStudent ⟨pe, ins, e1⟩ db studentData = (.ok rec, db') →
      rec ∈ db') := by
  have hsw : ∀ o, sendWelcomeEmail o = Except.ok () := fun o => by
    cases o <;> rfl
  refine ⟨hsw, by simp [addStudent, hsw], fun rec db' h => ?_⟩
  rcases addStudent_ok_inv h with ⟨-, hdb, -⟩
  rw [hdb]
  exact List.mem_append_right db (List.mem_singleton_self rec)

theorem addStudent_email_fault_swallowed_witness :
    sendWelcomeEmail (.invokeError smtpMsg) = .ok () ∧
    addStudent ⟨false, .created idOne 1 1 1, .delivered⟩ [] anaInput
      = addStudent ⟨false, .created idOne 1 1 1, .invokeError smtpMsg⟩
          [] anaInput ∧
    mkRow anaInput idOne 1 1 1 ∈ [mkRow anaInput idOne 1 1 1] :=
  ⟨(addStudent_email_fault_swallowed false (.created idOne 1 1 1) [] anaInput
      (.invokeError smtpMsg) .delivered).1 _,
   (addStudent_email_fault_swallowed false (.created idOne 1 1 1) [] anaInput
      .delivered (.invokeError smtpMsg)).2.1,
   (addStudent_email_fault_swallowed false (.created idOne 1 1 1) [] anaInput
      .delivered (.invokeError smtpMsg)).2.2 (mkRow anaInput idOne 1 1 1)
      [mkRow anaInput idOne 1 1 1] rfl⟩

/-- C8: removeStudent fails with a persistence error exactly when the
underlying delete reports one, succeeds silently otherwise with no prior
existence check so that removing an absent id is a no-op success, and
after a successful removal the lookup of the removed record by its email
returns absent. -/
theorem removeStudent_spec (db : List ManualStudent) (studentId msg : String)
    (hn : EmailsNormalized db) (hu : EmailsUnique db) :
    removeStudent (some msg) db studentId
      = (.error (.persistenceError msg), db) ∧
    (removeStudent none db studentId).1 = .ok () ∧
    ((∀ r ∈ db, r.id ≠ studentId) →
      removeStudent none db studentId = (.ok (), db)) ∧
    (∀ r ∈ db, r.id = studentId →
      getStudentByEmail false (removeStudent none db studentId).2 r.email
        = none) := by
  refine ⟨rfl, rfl, fun h => ?_, fun r hr hid => ?_⟩
  · have hkeep : db.filter (fun r => decide (r.id ≠ studentId)) = db :=
      List.filter_eq_self.mpr (fun x hx => decide_eq_true (h x hx))
    simp only [removeStudent]
    rw [hkeep]
  · have hnil : (db.filter (fun x => decide (x.id ≠ studentId))).filter
        (activeEmailRow r.email) = [] := by
      refine List.filter_eq_nil_iff.mpr (fun x hx hpx => ?_)
      have hx' := List.mem_filter.mp hx
      have hp := of_decide_eq_true hpx
      have hxe : x.email = r.email := by rw [hp.1, hn r hr]
      have hxr : x = r := eq_of_mem_of_email_eq hu hx'.1 hr hxe
      exact (of_decide_eq_true hx'.2) (by rw [hxr, hid])
    show singleRow ((db.filter (fun x => decide (x.id ≠ studentId))).filter
        (activeEmailRow r.email)) = none
    rw [hnil]
    rfl

theorem removeStudent_spec_witness :
    removeStudent none [anaRow] idAbsent = (.ok (), [anaRow]) ∧
    getStudentByEmail false (removeStudent none [anaRow] idOne).2
      anaLowerEmail = none :=
  ⟨(removeStudent_spec [anaRow] idAbsent faultMsg (by decide) (by decide)).2.2.1
      (by decide),
   (removeStudent_spec [anaRow] idOne faultMsg (by decide) (by decide)).2.2.2
      anaRow (List.mem_singleton_self _) rfl⟩

/-- C10: the duplicate pre-check of addStudent discards the error of the
lookup query: the duplicate-email error is thrown only when the lookup
actually returns a matching row, and when the pre-check query faults
addStudent treats it as no duplicate and proceeds to the insert, whose
outcome then decides the call. -/
theorem addStudent_precheck_error_discarded (db : List ManualStudent)
    (studentData : CreateStudentData) :
    (∀ i aAt cAt uAt em,
      addStudent ⟨true, .created i aAt cAt uAt, em⟩ db studentData
        = (.ok (mkRow studentData i aAt cAt uAt),
           db ++ [mkRow studentData i aAt cAt uAt])) ∧
    (∀ m em, addStudent ⟨true, .storageError m, em⟩ db studentData
        = (.error (.persistenceError m), db)) ∧
    (∀ env : AddEnv,
      (addStudent env db studentData).1 = .error .duplicateEmail →
      env.precheckError = false ∧
      ∃ r ∈ db, r.email = toLowerCase studentData.email) := by
  refine ⟨fun i aAt cAt uAt em => ?_, fun m em => rfl, fun env h => ?_⟩
  · cases em <;> rfl
  · rcases env with ⟨pe, ins, em⟩
    cases pe with
    | true =>
      exfalso
      cases ins <;> cases em <;>
        simp [addStudent, sendWelcomeEmail, sendWelcomeEmailBody] at h
    | false =>
      refine ⟨rfl, ?_⟩
      cases hs : singleRow (db.filter
          (fun r => decide (r.email = toLowerCase studentData.email))) with
      | none =>
        exfalso
        cases ins <;> cases em <;>
          simp [addStudent, hs, sendWelcomeEmail, sendWelcomeEmailBody] at h
      | some r =>
        have hmem := List.mem_filter.mp (mem_of_singleRow_eq_some hs)
        exact ⟨r, hmem.1, of_decide_eq_true hmem.2⟩

/-- The second add input of the pre-check fault scenario: a different
administrator re-adds the already-stored email in capitals. -/
def biaInput : CreateStudentData :=
  { name := "Bia Souza", email := "ANA@EXAMPLE.COM", notes := none,
    added_by := "admin2" }

theorem addStudent_precheck_error_discarded_witness :
    addStudent ⟨true, .created idTwo 2 2 2, .delivered⟩ [anaRow] biaInput
      = (.ok (mkRow biaInput idTwo 2 2 2),
         [anaRow, mkRow biaInput idTwo 2 2 2]) ∧
    ((⟨false, .created idTwo 2 2 2, .delivered⟩ : AddEnv).precheckError
        = false ∧
      ∃ r ∈ [anaRow], r.email = toLowerCase biaInput.email) :=
  ⟨(addStudent_precheck_error_discarded [anaRow] biaInput).1 idTwo 2 2 2
      .delivered,
   (addStudent_precheck_error_discarded [anaRow] biaInput).2.2
      ⟨false, .created idTwo 2 2 2, .delivered⟩ rfl⟩

end StudentManager
